import Mathlib

/-!
Shallow embedding, in Lean 4, of the parts of the `ai-agents-pattern`
repository that the verification claims are about:

* `utils/llm_provider.py` — `SimpleLLM` (provider detection, `generate`);
* `patterns/12_exception_handling.py` — `PrimaryService.get_data`,
  `ExceptionHandler.handle_with_retry`;
* `patterns/26_state_machines.py` — `StateMachine.transition`;
* `patterns/35_pev.py` — `PEVAgent.plan`, `PEVAgent.solve`;
* `patterns/38_tree_of_thoughts.py` — `ThoughtNode`, `TreeOfThoughts`.

External collaborators (vendor LLM SDKs, `json.loads`, `random.random`,
wall-clock time) are modelled as explicit oracle parameters; Python floats
appearing in the code (`0.7`, `7.0`, `6.0`) are modelled as rationals,
machine-word overflow being irrelevant here.  Each Python function is
translated clause by clause; dictionaries keyed by strings are modelled as
association lists, and Python exception-raising functions return `Except`.
-/

namespace LLMProvider

/-- Truthiness of `os.getenv(name)` in a boolean context: the variable must be
present in the environment and bound to a non-empty string. -/
def envTruthy (v : Option String) : Bool :=
  match v with
  | none => false
  | some s => !s.isEmpty

/-- The environment as seen by `SimpleLLM._detect_provider`: the five API-key
variables, plus the result of `_check_ollama` (whether a GET on
`http://localhost:11434/api/tags` answers with status 200). -/
structure Env where
  openai_api_key : Option String
  google_api_key : Option String
  anthropic_api_key : Option String
  fireworks_api_key : Option String
  mistral_api_key : Option String
  ollama_running : Bool

/-- The `ValueError` message raised when no provider is detected. -/
def noProviderMsg : String :=
  "No API key found! Set OPENAI_API_KEY, GOOGLE_API_KEY, ANTHROPIC_API_KEY, FIREWORKS_API_KEY, MISTRAL_API_KEY, or run Ollama locally"

/-- `SimpleLLM._detect_provider` (utils/llm_provider.py, lines 28-43):
an `if/elif` chain over environment-variable truthiness, then the Ollama
probe, else `ValueError`. -/
def detect_provider (e : Env) : Except String String :=
  if envTruthy e.openai_api_key then .ok "openai"
  else if envTruthy e.google_api_key then .ok "gemini"
  else if envTruthy e.anthropic_api_key then .ok "anthropic"
  else if envTruthy e.fireworks_api_key then .ok "fireworks"
  else if envTruthy e.mistral_api_key then .ok "mistral"
  else if e.ollama_running then .ok "ollama"
  else .error noProviderMsg

/-- An instance's configuration after `__init__`: the selected provider and
model name. -/
structure Config where
  provider : String
  model : String

/-- `LLMResponse` (utils/llm_provider.py, lines 13-18). -/
structure LLMResponse where
  content : String
  model : String
  provider : String
deriving DecidableEq

/-- One outcome of the underlying vendor call: either the text the vendor SDK
hands back (`response.choices[0].message.content`, `response.text`, …) or the
message of the exception it raised. -/
abbrev CallOutcome := Except String String

/-- `SimpleLLM.generate` (utils/llm_provider.py, lines 89-148), with the
vendor SDK modelled as a queue of call outcomes: each branch of the
`if/elif` chain performs exactly one vendor call, so it consumes exactly one
element of the queue.  The function returns the unconsumed remainder of the
queue alongside the result.  A success becomes an `LLMResponse` built from
the returned text and the instance's `model`/`provider`; any exception is
re-raised as `Error with {provider}: {e}`.  An empty queue (the vendor never
answering) has no Python counterpart and is mapped to an error artefact. -/
def generate (cfg : Config) (calls : List CallOutcome) :
    Except String LLMResponse × List CallOutcome :=
  match calls with
  | [] => (.error "no vendor call available", [])
  | outcome :: rest =>
    match outcome with
    | .ok content =>
      (.ok { content := content, model := cfg.model, provider := cfg.provider }, rest)
    | .error e =>
      (.error ("Error with " ++ cfg.provider ++ ": " ++ e), rest)

end LLMProvider

namespace Pattern12

/-- `PrimaryService.get_data` (patterns/12_exception_handling.py, lines
36-44), with the `random.random()` draw made an explicit rational input `r`:
it raises `ServiceError` exactly when `r > success_rate` and otherwise
returns the formatted result string. -/
def get_data (success_rate : ℚ) (r : ℚ) (query : String) : Except String String :=
  if r > success_rate then
    .error ("Primary service failed for query: " ++ query)
  else
    .ok ("Primary service result for: " ++ query)

/-- The default `success_rate` of `PrimaryService.__init__` (`0.7`). -/
def defaultSuccessRate : ℚ := 7 / 10

/-- Result of a `handle_with_retry` run: the value returned or exception
re-raised (`Except.error none` models Python's final `raise last_exception`
when no attempt ever ran), the sleeps performed (in seconds, in order), and
how many times the operation was attempted. -/
structure RetryRun (α : Type) where
  result : Except (Option String) α
  sleeps : List Nat
  attempts : Nat

/-- The `for attempt in range(max_retries)` loop of
`ExceptionHandler.handle_with_retry` (patterns/12_exception_handling.py,
lines 65-83), from iteration `attempt` on, with the operation modelled as a
map from attempt index to outcome.  A success returns at once; a failure
records the exception and, when another iteration remains
(`attempt < max_retries - 1`), sleeps `2 ** attempt` seconds before it. -/
def retryFrom (op : Nat → Except String α) (max_retries : Nat) :
    Nat → Option String → RetryRun α
  | attempt, last =>
    if _h : attempt < max_retries then
      match op attempt with
      | .ok v => { result := .ok v, sleeps := [], attempts := 1 }
      | .error e =>
        let rest := retryFrom op max_retries (attempt + 1) (some e)
        { result := rest.result
          sleeps := (if attempt + 1 < max_retries then [2 ^ attempt] else []) ++ rest.sleeps
          attempts := rest.attempts + 1 }
    else
      { result := .error last, sleeps := [], attempts := 0 }
termination_by attempt _ => max_retries - attempt

/-- `ExceptionHandler.handle_with_retry`: run the loop from attempt `0` with
`last_exception = None`. -/
def handle_with_retry (op : Nat → Except String α) (max_retries : Nat) : RetryRun α :=
  retryFrom op max_retries 0 none

/-- `ExceptionHandler.__init__` sets `self.max_retries = 3`. -/
def handlerMaxRetries : Nat := 3

end Pattern12

namespace AgentPatterns

/-- The JSON-extraction preamble shared verbatim by
`TreeOfThoughts.generate_thoughts` / `evaluate_thought` / `is_terminal`
(patterns/38_tree_of_thoughts.py) and `PEVAgent.plan` / `verify_step`
(patterns/35_pev.py): if the response contains a fenced ```json block, take
the text between the first fence pair and strip it; else if it contains any
``` fence, take the text after the first fence up to the next fence and
strip it; otherwise use the response unchanged.  Python's
`s.split(sep)[i]` is `(s.splitOn sep).getD i ""` (the index is only reached
when the separator occurs, so the default is never used), and `.strip()` is
`String.trim`. -/
def extractJson (response : String) : String :=
  let partsJson := response.splitOn "```json"
  if partsJson.length > 1 then
    (((partsJson.getD 1 "").splitOn "```").headD "").trim
  else
    let parts := response.splitOn "```"
    if parts.length > 1 then
      (((parts.getD 1 "").splitOn "```").headD "").trim
    else response

end AgentPatterns

namespace ToT

/-- The hard-coded fallback thoughts of `TreeOfThoughts.generate_thoughts`
(patterns/38_tree_of_thoughts.py, lines 113-118); the code returns their
`[:num_thoughts]` prefix. -/
def fallbackThoughts : List String :=
  ["Approach 1: Continue with current path",
   "Alternative 2: Try different method",
   "Backup 3: Reconsider previous step"]

/-- `TreeOfThoughts.generate_thoughts` after the LLM call, with the LLM's
returned text `response` explicit and `json.loads` modelled as an oracle
returning `none` on `json.JSONDecodeError` and the decoded string array
otherwise: parse the extracted JSON and truncate to `num_thoughts`, falling
back to the hard-coded thoughts on a parse failure. -/
def generate_thoughts (jsonArr : String → Option (List String))
    (response : String) (num_thoughts : Nat) : List String :=
  match jsonArr (AgentPatterns.extractJson response) with
  | some thoughts => thoughts.take num_thoughts
  | none => fallbackThoughts.take num_thoughts

/-- The evaluation dictionary produced by `TreeOfThoughts.evaluate_thought`
(its keys, with `overall` a rational standing for the Python float and
`continue_` for the Python key `"continue"`). -/
structure Evaluation where
  logic : Int
  feasibility : Int
  completeness : Int
  creativity : Int
  overall : ℚ
  strengths : String
  weaknesses : String
  continue_ : Bool

/-- The hard-coded fallback evaluation of `TreeOfThoughts.evaluate_thought`
(patterns/38_tree_of_thoughts.py, lines 168-178). -/
def fallbackEvaluation : Evaluation :=
  { logic := 7, feasibility := 7, completeness := 7, creativity := 7,
    overall := 7, strengths := "Reasonable approach",
    weaknesses := "Standard approach", continue_ := true }

/-- `TreeOfThoughts.evaluate_thought` after the LLM call: parse the
extracted JSON, falling back to the hard-coded evaluation on a parse
failure. -/
def evaluate_thought (jsonEval : String → Option Evaluation)
    (response : String) : Evaluation :=
  match jsonEval (AgentPatterns.extractJson response) with
  | some evaluation => evaluation
  | none => fallbackEvaluation

/-- The dictionary parsed by `TreeOfThoughts.is_terminal`; `is_complete` is
optional because the code reads it with `result.get("is_complete", False)`. -/
structure TermParse where
  is_complete : Option Bool
  reason : Option String

/-- `TreeOfThoughts.is_terminal` after the LLM call: parse the extracted
JSON and read `is_complete` (default `False`); on a parse failure, consider
the path complete when it has at least 3 steps. -/
def is_terminal (jsonTerm : String → Option TermParse)
    (response : String) (thought_path : List String) : Bool :=
  match jsonTerm (AgentPatterns.extractJson response) with
  | some r => r.is_complete.getD false
  | none => decide (3 ≤ thought_path.length)

/-- A node of the tree `TreeOfThoughts.build_tree` returns, as a pure value
(the mutable `parent` back-pointer of the Python `ThoughtNode`, which the
returned tree is reachable without, is studied separately in the `Heap`
development below). -/
inductive TNode where
  | mk (content : String) (evaluation_score : ℚ) (is_terminal : Bool)
      (children : List TNode)

def TNode.content : TNode → String
  | .mk c _ _ _ => c

def TNode.evaluation_score : TNode → ℚ
  | .mk _ s _ _ => s

def TNode.isTerminal : TNode → Bool
  | .mk _ _ b _ => b

def TNode.children : TNode → List TNode
  | .mk _ _ _ cs => cs

mutual

/-- Height of a tree node: 1 plus the maximal height of its children, so a
node of height `h` has every descendant at relative depth at most `h - 1`. -/
def TNode.height : TNode → Nat
  | .mk _ _ _ cs => 1 + heightList cs

def heightList : List TNode → Nat
  | [] => 0
  | t :: ts => max t.height (heightList ts)

end

mutual

/-- All nodes of a tree (the node itself and its descendants). -/
def TNode.nodes : TNode → List TNode
  | .mk c s b cs => .mk c s b cs :: nodesList cs

def nodesList : List TNode → List TNode
  | [] => []
  | t :: ts => t.nodes ++ nodesList ts

end

/-- The LLM and `json.loads` collaborators of `TreeOfThoughts.build_tree`.
`SimpleLLM` is stateless and each prompt of the three helper methods is a
function of the problem and the thought path alone, so the LLM's reply to
each prompt is modelled as a function of the path (the problem, fixed for a
whole `build_tree` run, is baked into the oracle). -/
structure Oracles where
  genResponse : List String → String
  evalResponse : List String → String
  termResponse : List String → String
  jsonArr : String → Option (List String)
  jsonEval : String → Option Evaluation
  jsonTerm : String → Option TermParse

/-- One child node created inside the `build_tree` BFS loop
(patterns/38_tree_of_thoughts.py, lines 244-260), together with its whole
descendant tree: the child (content `content`, path `path ++ [content]`) is
evaluated and checked for terminality on creation; it is expanded — one
batch of `generate_thoughts` children, recursively — exactly when levels
remain below `max_depth` (`levelsLeft`) and it passed the pruning filter
`not is_terminal and evaluation_score >= 6.0`.  Per-level batching (BFS) and
this per-path recursion (DFS) build the same tree because the expansion of a
node depends only on its own path. -/
def growChild (o : Oracles) (branching_factor : Nat) (path : List String)
    (content : String) : Nat → TNode
  | 0 =>
    let newPath := path ++ [content]
    let evaluation := evaluate_thought o.jsonEval (o.evalResponse newPath)
    let isT := is_terminal o.jsonTerm (o.termResponse newPath) newPath
    .mk content evaluation.overall isT []
  | levelsLeft + 1 =>
    let newPath := path ++ [content]
    let evaluation := evaluate_thought o.jsonEval (o.evalResponse newPath)
    let isT := is_terminal o.jsonTerm (o.termResponse newPath) newPath
    let kids :=
      if isT = false ∧ 6 ≤ evaluation.overall then
        (generate_thoughts o.jsonArr (o.genResponse newPath) branching_factor).map
          (fun c => growChild o branching_factor newPath c levelsLeft)
      else []
    .mk content evaluation.overall isT kids

/-- `TreeOfThoughts.build_tree` (patterns/38_tree_of_thoughts.py, lines
218-264): the root (`"Start solving the problem"`, score `0.0`, not
terminal) is expanded unconditionally when `max_depth > 0`; levels `1` to
`max_depth` each expand the surviving nodes of the previous level. -/
def build_tree (o : Oracles) (max_depth branching_factor : Nat) : TNode :=
  let rootContent := "Start solving the problem"
  let kids :=
    match max_depth with
    | 0 => []
    | md + 1 =>
      (generate_thoughts o.jsonArr (o.genResponse [rootContent]) branching_factor).map
        (fun c => growChild o branching_factor [rootContent] c md)
  .mk rootContent 0 false kids

/-- Concrete collaborators used to exercise `build_tree` on a closed input:
the LLM always answers `""`, thought arrays always decode to `["x"]`, and
evaluation/terminality JSON never decodes (exercising the fallbacks). -/
def witnessOracles : Oracles :=
  { genResponse := fun _ => "", evalResponse := fun _ => "",
    termResponse := fun _ => "", jsonArr := fun _ => some ["x"],
    jsonEval := fun _ => none, jsonTerm := fun _ => none }

end ToT

namespace PEV

/-- One step of a `PEVAgent` plan: the dictionaries the plan JSON decodes to
(`step`, `tool`, `parameters`). -/
structure PlanStep where
  step : String
  tool : String
  parameters : List String
deriving DecidableEq

/-- The hard-coded two-step fallback plan of `PEVAgent.plan`
(patterns/35_pev.py, lines 158-163). -/
def fallbackPlan (goal : String) : List PlanStep :=
  [{ step := "Search for information about: " ++ goal, tool := "search",
     parameters := [goal] },
   { step := "Analyze the results", tool := "search",
     parameters := ["analysis of " ++ goal] }]

/-- `PEVAgent.plan` after the LLM call, with the LLM's returned text
`response` explicit and `json.loads` as an oracle: parse the extracted JSON,
falling back to the hard-coded two-step plan on a parse failure. -/
def plan (jsonPlan : String → Option (List PlanStep))
    (response : String) (goal : String) : List PlanStep :=
  match jsonPlan (AgentPatterns.extractJson response) with
  | some p => p
  | none => fallbackPlan goal

/-- A parsed verification, as produced by `PEVAgent.verify_step` (either
decoded from the LLM reply or built by its fallback branch). -/
structure Verification where
  success : Bool
  reason : String
  suggestion : String
deriving DecidableEq

/-- One entry of the `results` list of `PEVAgent.solve`; the executed step's
result dictionary is recorded as an opaque blob (its content never steers
the loop — only the verification's `success` flag does). -/
structure StepRecord where
  step : PlanStep
  result : String
  verification : Verification
  status : String
deriving DecidableEq

/-- `PEVAgent.__init__` sets `self.max_retries = 3`. -/
def agentMaxRetries : Nat := 3

/-- The execute-and-verify `while` loop of `PEVAgent.solve`
(patterns/35_pev.py, lines 256-296), with fuel making the recursion
manifestly structural (`none` = fuel exhausted, which the termination
theorem below rules out for sufficient fuel).  `execO i` / `verifyO i` are
the outcomes of `execute_step` / `verify_step` at the `i`-th iteration.
Each iteration pops the front step; a verified success appends a
`"success"` record and resets `retry_count` to 0; a failure re-inserts the
step at the front and increments `retry_count`, and once `retry_count`
reaches `max_retries` the step is recorded `"failed"` and the loop breaks. -/
def solveLoop (execO : Nat → String) (verifyO : Nat → Verification)
    (max_retries : Nat) :
    Nat → List PlanStep → Nat → Nat → List StepRecord → Option (List StepRecord)
  | 0, _, _, _, _ => none
  | fuel + 1, current_plan, retry_count, iter, results =>
    match current_plan with
    | [] => some results
    | step :: rest =>
      if retry_count < max_retries then
        let result := execO iter
        let verification := verifyO iter
        if verification.success then
          solveLoop execO verifyO max_retries fuel rest 0 (iter + 1)
            (results ++ [{ step := step, result := result,
                           verification := verification, status := "success" }])
        else
          if max_retries ≤ retry_count + 1 then
            some (results ++ [{ step := step, result := result,
                                verification := verification, status := "failed" }])
          else
            solveLoop execO verifyO max_retries fuel (step :: rest)
              (retry_count + 1) (iter + 1) results
      else some results

end PEV

namespace Heap

/-- A `ThoughtNode` object (patterns/38_tree_of_thoughts.py, lines 35-62) as
it sits on the Python heap: `parent` and `children` are references, modelled
as indices into an explicit object store; `__post_init__` turns the `None`
children default into `[]`.  (`evaluation_score` and `is_terminal` play no
role in C10 and are omitted from the store.) -/
structure NodeObj where
  content : String
  parent : Option Nat
  children : List Nat
  depth : Nat
deriving DecidableEq

/-- The object store: node `i` is `store.get? i`. -/
abbrev Store := List NodeObj

/-- `child = ThoughtNode(content=...)` followed by `node.add_child(child)`
(the only way nodes are attached in this file): allocate a fresh node
(`parent=None`, `depth=0`, then overwritten by `add_child`, which sets
`child.parent = self`, `child.depth = self.depth + 1` and appends the child
to `self.children`).  The fresh node gets the next index `s.length`. -/
def addChild (s : Store) (p : Nat) (content : String) : Store :=
  let parentNode := s.getD p { content := "", parent := none, children := [], depth := 0 }
  let child : NodeObj :=
    { content := content, parent := some p, children := [],
      depth := parentNode.depth + 1 }
  s.set p { parentNode with children := parentNode.children ++ [s.length] } ++ [child]

/-- Stores reachable from a single root `ThoughtNode` (depth 0, no parent)
by `add_child` calls attaching fresh nodes to existing ones — the discipline
of `build_tree`. -/
inductive Built : Store → Prop where
  | root (c : String) :
      Built [{ content := c, parent := none, children := [], depth := 0 }]
  | step (s : Store) (p : Nat) (c : String) :
      Built s → p < s.length → Built (addChild s p c)

/-- The `while current:` loop of `ThoughtNode.get_path`, with fuel (the loop
follows `parent` references, which in any `Built` store strictly decrease,
so `s.length` steps of fuel always suffice). -/
def getPathAux (s : Store) : Nat → Option Nat → List String → List String
  | _, none, acc => acc
  | 0, some _, acc => acc
  | fuel + 1, some i, acc =>
    match s[i]? with
    | none => acc
    | some n => getPathAux s fuel n.parent (n.content :: acc)

/-- `ThoughtNode.get_path` on the node at index `i`: walk `parent`
references from the node up to the root, prepending each `content`. -/
def get_path (s : Store) (i : Nat) : List String :=
  getPathAux s s.length (some i) []

end Heap

namespace SM26

/-- `AgentState` (patterns/26_state_machines.py, lines 26-33). -/
inductive AgentState where
  | IDLE | LISTENING | PROCESSING | RESPONDING | ERROR | SLEEPING
deriving DecidableEq

/-- `AgentState.value` strings. -/
def AgentState.val : AgentState → String
  | .IDLE => "idle"
  | .LISTENING => "listening"
  | .PROCESSING => "processing"
  | .RESPONDING => "responding"
  | .ERROR => "error"
  | .SLEEPING => "sleeping"

/-- `Event` (patterns/26_state_machines.py, lines 35-43). -/
inductive Event where
  | USER_INPUT | PROCESSING_COMPLETE | ERROR_OCCURRED | TIMEOUT
  | SLEEP_COMMAND | WAKE_COMMAND | RESET_COMMAND
deriving DecidableEq

/-- `Event.value` strings. -/
def Event.val : Event → String
  | .USER_INPUT => "user_input"
  | .PROCESSING_COMPLETE => "processing_complete"
  | .ERROR_OCCURRED => "error_occurred"
  | .TIMEOUT => "timeout"
  | .SLEEP_COMMAND => "sleep_command"
  | .WAKE_COMMAND => "wake_command"
  | .RESET_COMMAND => "reset_command"

/-- String-keyed Python dicts (`self.context` and the `data` arguments),
modelled as association lists over string values (`{"completed": True}` is
recorded as `("completed", "true")`). -/
abbrev Dict := List (String × String)

/-- `d[key] = v` on a dict. -/
def Dict.setKey (d : Dict) (key v : String) : Dict :=
  (key, v) :: d.filter (fun kv => kv.1 ≠ key)

/-- `d.get(key, dflt)` on a dict. -/
def Dict.getKey (d : Dict) (key dflt : String) : String :=
  match d.find? (fun kv => kv.1 = key) with
  | some kv => kv.2
  | none => dflt

/-- One entry of `self.history` (patterns/26_state_machines.py, lines
110-116); `from_`/`to_` stand for the Python keys `"from"`/`"to"`. -/
structure HistEntry where
  from_ : String
  to_ : String
  event : String
  data : Dict
  timestamp : String

/-- The mutable state of a `StateMachine` instance.  The transition table is
instance data (`self.transitions`, filled by `_setup_transitions`); the
state-action table is the fixed method dispatch of
`_setup_state_actions`. -/
structure Machine where
  current_state : AgentState
  previous_state : Option AgentState
  transitions : List ((AgentState × Event) × AgentState)
  context : Dict
  history : List HistEntry

/-- `_setup_transitions` (patterns/26_state_machines.py, lines 61-76). -/
def defaultTransitions : List ((AgentState × Event) × AgentState) :=
  [((.IDLE, .USER_INPUT), .LISTENING),
   ((.LISTENING, .PROCESSING_COMPLETE), .PROCESSING),
   ((.PROCESSING, .PROCESSING_COMPLETE), .RESPONDING),
   ((.RESPONDING, .PROCESSING_COMPLETE), .IDLE),
   ((.ERROR, .RESET_COMMAND), .IDLE),
   ((.IDLE, .SLEEP_COMMAND), .SLEEPING),
   ((.SLEEPING, .WAKE_COMMAND), .IDLE),
   ((.LISTENING, .ERROR_OCCURRED), .ERROR),
   ((.PROCESSING, .ERROR_OCCURRED), .ERROR),
   ((.RESPONDING, .ERROR_OCCURRED), .ERROR),
   ((.LISTENING, .TIMEOUT), .IDLE),
   ((.PROCESSING, .TIMEOUT), .ERROR)]

/-- `StateMachine.__init__` (minus the LLM client, which is an oracle of the
transition function). -/
def initMachine (initial_state : AgentState) : Machine :=
  { current_state := initial_state, previous_state := none,
    transitions := defaultTransitions, context := [], history := [] }

/-- `transition_key in self.transitions` / `self.transitions[transition_key]`. -/
def lookupTransition (table : List ((AgentState × Event) × AgentState))
    (key : AgentState × Event) : Option AgentState :=
  match table.find? (fun e => e.1 = key) with
  | some e => some e.2
  | none => none

/-- The prompt `_processing_action` sends to the LLM. -/
def processingPrompt (user_input : String) : String :=
  "Process this user input and provide a helpful response:\n\"" ++ user_input ++
    "\"\n\nBe concise and helpful."

mutual

/-- `StateMachine.transition` (patterns/26_state_machines.py, lines 89-121),
with the LLM as an oracle `llm` (reply or raised message, per prompt), the
wall clock as an oracle `ts` (timestamp of the `n`-th history entry), and
fuel for the recursion through state actions (state actions themselves call
`transition`; with fuel 0 the artefact value `(false, m)` stands in).  An
event with no entry for `(current_state, event)` in the table returns
`False` with the machine untouched; otherwise the machine records
`previous_state`, moves to the new state, appends a history entry, runs the
new state's action, and returns `True`. -/
def transition (llm : String → Except String String) (ts : Nat → String) :
    Nat → Machine → Event → Dict → Bool × Machine
  | 0, m, _, _ => (false, m)
  | fuel + 1, m, event, data =>
    match lookupTransition m.transitions (m.current_state, event) with
    | none => (false, m)
    | some new_state =>
      let m1 : Machine :=
        { m with
          previous_state := some m.current_state
          current_state := new_state
          history := m.history ++
            [{ from_ := m.current_state.val, to_ := new_state.val,
               event := event.val, data := data,
               timestamp := ts m.history.length }] }
      (true, executeStateAction llm ts fuel m1 data)

/-- `StateMachine._execute_state_action` together with the six state-action
methods (patterns/26_state_machines.py, lines 123-195): each action updates
`self.context`, and the `LISTENING` / `PROCESSING` / `RESPONDING` actions
fire a follow-up `transition` (whose boolean result the caller discards). -/
def executeStateAction (llm : String → Except String String) (ts : Nat → String) :
    Nat → Machine → Dict → Machine
  | fuel, m, data =>
    match m.current_state with
    | .IDLE => { m with context := m.context.setKey "last_action" "idle" }
    | .LISTENING =>
      let user_input := data.getKey "input" ""
      let m1 := { m with context :=
        (m.context.setKey "user_input" user_input).setKey "last_action" "listening" }
      (transition llm ts fuel m1 .PROCESSING_COMPLETE data).2
    | .PROCESSING =>
      let user_input := m.context.getKey "user_input" ""
      match llm (processingPrompt user_input) with
      | .ok response =>
        let m1 := { m with context :=
          (m.context.setKey "llm_response" response).setKey "last_action" "processing" }
        (transition llm ts fuel m1 .PROCESSING_COMPLETE [("response", response)]).2
      | .error e =>
        (transition llm ts fuel m .ERROR_OCCURRED [("error", e)]).2
    | .RESPONDING =>
      let response := Dict.getKey data "response" (m.context.getKey "llm_response" "")
      let m1 := { m with context :=
        (m.context.setKey "final_response" response).setKey "last_action" "responding" }
      (transition llm ts fuel m1 .PROCESSING_COMPLETE [("completed", "true")]).2
    | .ERROR =>
      let error := data.getKey "error" "Unknown error"
      { m with context :=
        (m.context.setKey "error" error).setKey "last_action" "error" }
    | .SLEEPING => { m with context := m.context.setKey "last_action" "sleeping" }

end

end SM26

namespace LLMProvider

/-- C1 — Provider auto-detection follows the fixed priority
OpenAI → Gemini → Anthropic → Fireworks → Mistral → Ollama by
environment-variable presence, and raises `ValueError` when none applies:
for every environment, `_detect_provider` returns `"openai"` when
`OPENAI_API_KEY` is set; otherwise `"gemini"` when `GOOGLE_API_KEY` is set;
otherwise `"anthropic"` when `ANTHROPIC_API_KEY` is set; otherwise
`"fireworks"` when `FIREWORKS_API_KEY` is set; otherwise `"mistral"` when
`MISTRAL_API_KEY` is set; otherwise `"ollama"` when the local Ollama probe
answers; otherwise the `ValueError`. -/
theorem detect_provider_priority (e : Env) :
    (envTruthy e.openai_api_key = true → detect_provider e = .ok "openai") ∧
    (envTruthy e.openai_api_key = false → envTruthy e.google_api_key = true →
      detect_provider e = .ok "gemini") ∧
    (envTruthy e.openai_api_key = false → envTruthy e.google_api_key = false →
      envTruthy e.anthropic_api_key = true → detect_provider e = .ok "anthropic") ∧
    (envTruthy e.openai_api_key = false → envTruthy e.google_api_key = false →
      envTruthy e.anthropic_api_key = false → envTruthy e.fireworks_api_key = true →
      detect_provider e = .ok "fireworks") ∧
    (envTruthy e.openai_api_key = false → envTruthy e.google_api_key = false →
      envTruthy e.anthropic_api_key = false → envTruthy e.fireworks_api_key = false →
      envTruthy e.mistral_api_key = true → detect_provider e = .ok "mistral") ∧
    (envTruthy e.openai_api_key = false → envTruthy e.google_api_key = false →
      envTruthy e.anthropic_api_key = false → envTruthy e.fireworks_api_key = false →
      envTruthy e.mistral_api_key = false → e.ollama_running = true →
      detect_provider e = .ok "ollama") ∧
    (envTruthy e.openai_api_key = false → envTruthy e.google_api_key = false →
      envTruthy e.anthropic_api_key = false → envTruthy e.fireworks_api_key = false →
      envTruthy e.mistral_api_key = false → e.ollama_running = false →
      detect_provider e = .error noProviderMsg) := by
  unfold detect_provider
  refine ⟨?_, ?_, ?_, ?_, ?_, ?_, ?_⟩ <;> intros <;> simp_all

/-- Witness for C1: in an environment where only `GOOGLE_API_KEY` is set (and
`OPENAI_API_KEY` is absent), detection yields `"gemini"`. -/
theorem detect_provider_priority_witness :
    detect_provider
      { openai_api_key := none, google_api_key := some "k",
        anthropic_api_key := none, fireworks_api_key := some "x",
        mistral_api_key := none, ollama_running := false } = .ok "gemini" :=
  (detect_provider_priority _).2.1 rfl rfl

end LLMProvider

namespace Pattern12

/-- C7 — Failure simulation in pattern #12 is a pure random threshold: with
the `random.random()` draw modelled as an explicit input `r ∈ [0, 1)`,
`PrimaryService.get_data(query)` raises `ServiceError` exactly when
`r > success_rate` (default `0.7`), and otherwise returns
`"Primary service result for: "` followed by the query. -/
theorem get_data_threshold (r : ℚ) (query : String) (h0 : 0 ≤ r) (h1 : r < 1) :
    ((∃ msg, get_data defaultSuccessRate r query = .error msg) ↔ r > 7 / 10) ∧
    (r ≤ 7 / 10 →
      get_data defaultSuccessRate r query =
        .ok ("Primary service result for: " ++ query)) := by
  unfold get_data defaultSuccessRate
  constructor
  · constructor
    · rintro ⟨msg, hmsg⟩
      by_contra hle
      simp [hle] at hmsg
    · intro hgt
      exact ⟨"Primary service failed for query: " ++ query, by simp [hgt]⟩
  · intro hle
    simp [not_lt.mpr hle]

/-- Witness for C7: the draw `r = 4/5` lies in `[0,1)`, exceeds the default
threshold `0.7`, and makes `get_data` raise. -/
theorem get_data_threshold_witness :
    ∃ msg, get_data defaultSuccessRate (4 / 5) "q" = .error msg :=
  (get_data_threshold (4 / 5) "q" (by norm_num) (by norm_num)).1.mpr (by norm_num)

theorem retryFrom_stop (op : Nat → Except String α) (max_retries attempt : Nat)
    (last : Option String) (h : ¬ attempt < max_retries) :
    retryFrom op max_retries attempt last =
      { result := .error last, sleeps := [], attempts := 0 } := by
  rw [retryFrom]
  simp [h]

theorem retryFrom_ok (op : Nat → Except String α) (max_retries attempt : Nat)
    (last : Option String) (v : α) (h : attempt < max_retries)
    (hop : op attempt = .ok v) :
    retryFrom op max_retries attempt last =
      { result := .ok v, sleeps := [], attempts := 1 } := by
  rw [retryFrom]
  simp [h, hop]

theorem retryFrom_err (op : Nat → Except String α) (max_retries attempt : Nat)
    (last : Option String) (e : String) (h : attempt < max_retries)
    (hop : op attempt = .error e) :
    retryFrom op max_retries attempt last =
      { result := (retryFrom op max_retries (attempt + 1) (some e)).result
        sleeps := (if attempt + 1 < max_retries then [2 ^ attempt] else []) ++
          (retryFrom op max_retries (attempt + 1) (some e)).sleeps
        attempts := (retryFrom op max_retries (attempt + 1) (some e)).attempts + 1 } := by
  rw [retryFrom]
  simp [h, hop]

theorem retryFrom_attempts_le (op : Nat → Except String α) (max_retries : Nat) :
    ∀ n attempt last, max_retries - attempt ≤ n →
      (retryFrom op max_retries attempt last).attempts ≤ max_retries - attempt := by
  intro n
  induction n with
  | zero =>
    intro attempt last hn
    have h : ¬ attempt < max_retries := by omega
    rw [retryFrom_stop op max_retries attempt last h]
    simp
  | succ n ih =>
    intro attempt last hn
    by_cases h : attempt < max_retries
    · cases hop : op attempt with
      | ok v =>
        rw [retryFrom_ok op max_retries attempt last v h hop]
        simp
        omega
      | error e =>
        rw [retryFrom_err op max_retries attempt last e h hop]
        have := ih (attempt + 1) (some e) (by omega)
        simp
        omega
    · rw [retryFrom_stop op max_retries attempt last h]
      simp

/-- C6 — `ExceptionHandler.handle_with_retry` is a fixed-count retry loop:
with `max_retries = 3`, it attempts the operation at most 3 times; when the
first success is at attempt `k` it returns that result after sleeping
`2 ** 0, …, 2 ** (k-1)` seconds between consecutive attempts (exponential,
no jitter, no sleep after the final attempt); and when all 3 attempts fail
it re-raises the exception of the last attempt. -/
theorem handle_with_retry_spec (op : Nat → Except String α) (errs : Nat → String) :
    ((handle_with_retry op handlerMaxRetries).attempts ≤ 3) ∧
    (∀ k v, k < 3 → (∀ i, i < k → op i = .error (errs i)) → op k = .ok v →
      handle_with_retry op handlerMaxRetries =
        { result := .ok v, sleeps := (List.range k).map (2 ^ ·), attempts := k + 1 }) ∧
    ((∀ i, i < 3 → op i = .error (errs i)) →
      handle_with_retry op handlerMaxRetries =
        { result := .error (some (errs 2)), sleeps := [1, 2], attempts := 3 }) := by
  unfold handle_with_retry handlerMaxRetries
  refine ⟨?_, ?_, ?_⟩
  · have := retryFrom_attempts_le op 3 3 0 none (by omega)
    omega
  · intro k v hk hfail hok
    interval_cases k
    · rw [retryFrom_ok op 3 0 none v (by omega) hok]
      rfl
    · rw [retryFrom_err op 3 0 none (errs 0) (by omega) (hfail 0 (by omega)),
        retryFrom_ok op 3 1 (some (errs 0)) v (by omega) hok]
      rfl
    · rw [retryFrom_err op 3 0 none (errs 0) (by omega) (hfail 0 (by omega)),
        retryFrom_err op 3 1 (some (errs 0)) (errs 1) (by omega) (hfail 1 (by omega)),
        retryFrom_ok op 3 2 (some (errs 1)) v (by omega) hok]
      rfl
  · intro hfail
    rw [retryFrom_err op 3 0 none (errs 0) (by omega) (hfail 0 (by omega)),
      retryFrom_err op 3 1 (some (errs 0)) (errs 1) (by omega) (hfail 1 (by omega)),
      retryFrom_err op 3 2 (some (errs 1)) (errs 2) (by omega) (hfail 2 (by omega)),
      retryFrom_stop op 3 3 (some (errs 2)) (by omega)]
    rfl

/-- Witness for C6: an operation failing on attempt 0 and succeeding on
attempt 1 yields the success after one sleep of `2 ** 0 = 1` second and two
attempts in total. -/
theorem handle_with_retry_spec_witness :
    handle_with_retry
        (fun i => if i = 0 then (.error "boom" : Except String String) else .ok "v")
        handlerMaxRetries =
      { result := .ok "v", sleeps := [1], attempts := 2 } := by
  have h := (handle_with_retry_spec
    (fun i => if i = 0 then (.error "boom" : Except String String) else .ok "v")
    (fun _ => "boom")).2.1 1 "v" (by omega)
    (by intro i hi; interval_cases i; rfl) (by rfl)
  simpa using h

end Pattern12

namespace LLMProvider

/-- C2 — `SimpleLLM.generate` performs exactly one vendor call per
invocation (it consumes exactly one element of the call-outcome queue, with
no retry, backoff or error classification); when the underlying call raises,
`generate` raises an exception naming the provider instead of returning a
fallback; and on success it returns an `LLMResponse` whose `content` is the
vendor's returned text and whose `model` and `provider` equal the instance's
configuration. -/
theorem generate_single_call (cfg : Config) (outcome : CallOutcome)
    (rest : List CallOutcome) :
    ((generate cfg (outcome :: rest)).2 = rest) ∧
    (∀ e, outcome = .error e →
      (generate cfg (outcome :: rest)).1 =
        .error ("Error with " ++ cfg.provider ++ ": " ++ e)) ∧
    (∀ content, outcome = .ok content →
      (generate cfg (outcome :: rest)).1 =
        .ok { content := content, model := cfg.model, provider := cfg.provider }) := by
  refine ⟨?_, ?_, ?_⟩
  · cases outcome <;> rfl
  · intro e he
    subst he
    rfl
  · intro content hc
    subst hc
    rfl

/-- Witness for C2: a single successful vendor call with text `"hi"` under an
OpenAI configuration yields the corresponding `LLMResponse` and consumes
exactly that one queued outcome. -/
theorem generate_single_call_witness :
    (generate { provider := "openai", model := "gpt-3.5-turbo" } [.ok "hi"]).1 =
      .ok { content := "hi", model := "gpt-3.5-turbo", provider := "openai" } :=
  (generate_single_call { provider := "openai", model := "gpt-3.5-turbo" }
    (.ok "hi") []).2.2 "hi" rfl

end LLMProvider

namespace AgentPatterns

/-- C3 — when the LLM response cannot be parsed as JSON (`json.loads`
raising `json.JSONDecodeError`, i.e. the `json.loads` oracle returning
`none` on the extracted string), the parsing functions neither raise nor
retry: `TreeOfThoughts.generate_thoughts` returns (the `num_thoughts`-prefix
of) its hard-coded fallback thoughts, `TreeOfThoughts.evaluate_thought`
returns its hard-coded default evaluation (all four criteria 7, overall 7.0,
continue true), and `PEVAgent.plan` returns its hard-coded two-step fallback
plan. -/
theorem json_decode_fallbacks (jsonArr : String → Option (List String))
    (jsonEval : String → Option ToT.Evaluation)
    (jsonPlan : String → Option (List PEV.PlanStep))
    (respT respE respP goal : String) (num_thoughts : Nat) :
    (jsonArr (extractJson respT) = none →
      ToT.generate_thoughts jsonArr respT num_thoughts =
        ToT.fallbackThoughts.take num_thoughts) ∧
    (jsonEval (extractJson respE) = none →
      ToT.evaluate_thought jsonEval respE = ToT.fallbackEvaluation) ∧
    (jsonPlan (extractJson respP) = none →
      PEV.plan jsonPlan respP goal = PEV.fallbackPlan goal) := by
  refine ⟨?_, ?_, ?_⟩ <;> intro h <;>
    simp [ToT.generate_thoughts, ToT.evaluate_thought, PEV.plan, h]

/-- Witness for C3: with a `json.loads` oracle that always fails,
`generate_thoughts` on an arbitrary response yields exactly the three
fallback thoughts. -/
theorem json_decode_fallbacks_witness :
    ToT.generate_thoughts (fun _ => none) "not json" 3 = ToT.fallbackThoughts := by
  have h := (json_decode_fallbacks (fun _ => none) (fun _ => none) (fun _ => none)
    "not json" "x" "y" "goal" 3).1 rfl
  simpa using h

end AgentPatterns

namespace PEV

theorem solveLoop_nil (execO : Nat → String) (verifyO : Nat → Verification)
    (mr fuel rc iter : Nat) (results : List StepRecord) :
    solveLoop execO verifyO mr (fuel + 1) [] rc iter results = some results := rfl

theorem solveLoop_stopRetry (execO : Nat → String) (verifyO : Nat → Verification)
    (mr fuel rc iter : Nat) (s : PlanStep) (rest : List PlanStep)
    (results : List StepRecord) (h : ¬ rc < mr) :
    solveLoop execO verifyO mr (fuel + 1) (s :: rest) rc iter results = some results := by
  simp [solveLoop, h]

theorem solveLoop_success (execO : Nat → String) (verifyO : Nat → Verification)
    (mr fuel rc iter : Nat) (s : PlanStep) (rest : List PlanStep)
    (results : List StepRecord) (h : rc < mr) (hv : (verifyO iter).success = true) :
    solveLoop execO verifyO mr (fuel + 1) (s :: rest) rc iter results =
      solveLoop execO verifyO mr fuel rest 0 (iter + 1)
        (results ++ [{ step := s, result := execO iter,
                       verification := verifyO iter, status := "success" }]) := by
  simp [solveLoop, h, hv]

theorem solveLoop_fail_break (execO : Nat → String) (verifyO : Nat → Verification)
    (mr fuel rc iter : Nat) (s : PlanStep) (rest : List PlanStep)
    (results : List StepRecord) (h : rc < mr) (hv : (verifyO iter).success = false)
    (h2 : mr ≤ rc + 1) :
    solveLoop execO verifyO mr (fuel + 1) (s :: rest) rc iter results =
      some (results ++ [{ step := s, result := execO iter,
                          verification := verifyO iter, status := "failed" }]) := by
  simp [solveLoop, h, hv, h2]

theorem solveLoop_fail_retry (execO : Nat → String) (verifyO : Nat → Verification)
    (mr fuel rc iter : Nat) (s : PlanStep) (rest : List PlanStep)
    (results : List StepRecord) (h : rc < mr) (hv : (verifyO iter).success = false)
    (h2 : ¬ mr ≤ rc + 1) :
    solveLoop execO verifyO mr (fuel + 1) (s :: rest) rc iter results =
      solveLoop execO verifyO mr fuel (s :: rest) (rc + 1) (iter + 1) results := by
  simp [solveLoop, h, hv, h2]

theorem solveLoop_isSome (execO : Nat → String) (verifyO : Nat → Verification) :
    ∀ fuel (current_plan : List PlanStep) rc iter results,
      rc < 3 → 3 * current_plan.length + 3 - rc ≤ fuel →
      (solveLoop execO verifyO 3 fuel current_plan rc iter results).isSome := by
  intro fuel
  induction fuel with
  | zero =>
    intro plan rc iter results hrc hle
    exfalso
    omega
  | succ f ih =>
    intro plan rc iter results hrc hle
    match plan with
    | [] => simp [solveLoop_nil]
    | s :: rest =>
      by_cases hv : (verifyO iter).success
      · rw [solveLoop_success execO verifyO 3 f rc iter s rest results hrc hv]
        exact ih rest 0 (iter + 1) _ (by omega) (by simp at hle ⊢; omega)
      · by_cases h2 : (3:Nat) ≤ rc + 1
        · rw [solveLoop_fail_break execO verifyO 3 f rc iter s rest results hrc
            (by simpa using hv) h2]
          rfl
        · rw [solveLoop_fail_retry execO verifyO 3 f rc iter s rest results hrc
            (by simpa using hv) h2]
          exact ih (s :: rest) (rc + 1) (iter + 1) results (by omega)
            (by simp at hle ⊢; omega)

/-- C4 — failure recovery in `PEVAgent.solve` is bounded by a fixed retry
count: the execute-and-verify loop of any finite plan terminates within
`3 * |plan| + 3` iterations; a verified success appends a `"success"` record
and resets the consecutive-failure counter to zero; a failed verification
re-inserts the step at the front of the remaining plan, so the very same
step is retried next with the counter incremented; and on the third
consecutive failed verification (`max_retries = 3`) the step is recorded
with status `"failed"` and the loop stops. -/
theorem solve_bounded_retries (execO : Nat → String) (verifyO : Nat → Verification) :
    (∀ current_plan : List PlanStep,
      (solveLoop execO verifyO agentMaxRetries (3 * current_plan.length + 3)
        current_plan 0 0 []).isSome) ∧
    (∀ fuel rc iter (s : PlanStep) rest results, rc < 3 →
      (verifyO iter).success = true →
      solveLoop execO verifyO agentMaxRetries (fuel + 1) (s :: rest) rc iter results =
        solveLoop execO verifyO agentMaxRetries fuel rest 0 (iter + 1)
          (results ++ [{ step := s, result := execO iter,
                         verification := verifyO iter, status := "success" }])) ∧
    (∀ fuel rc iter (s : PlanStep) rest results, rc + 1 < 3 →
      (verifyO iter).success = false →
      solveLoop execO verifyO agentMaxRetries (fuel + 1) (s :: rest) rc iter results =
        solveLoop execO verifyO agentMaxRetries fuel (s :: rest) (rc + 1) (iter + 1)
          results) ∧
    (∀ fuel iter (s : PlanStep) rest results,
      (verifyO iter).success = false →
      solveLoop execO verifyO agentMaxRetries (fuel + 1) (s :: rest) 2 iter results =
        some (results ++ [{ step := s, result := execO iter,
                            verification := verifyO iter, status := "failed" }])) := by
  refine ⟨?_, ?_, ?_, ?_⟩
  · intro plan
    exact solveLoop_isSome execO verifyO _ plan 0 0 [] (by omega) (by omega)
  · intro fuel rc iter s rest results hrc hv
    exact solveLoop_success execO verifyO 3 fuel rc iter s rest results hrc hv
  · intro fuel rc iter s rest results hrc hv
    exact solveLoop_fail_retry execO verifyO 3 fuel rc iter s rest results
      (by omega) hv (by omega)
  · intro fuel iter s rest results hv
    exact solveLoop_fail_break execO verifyO 3 fuel 2 iter s rest results
      (by omega) hv (by omega)

/-- Witness for C4: with a verifier that always fails, a one-step plan at a
consecutive-failure count of 2 is recorded `"failed"` and the loop stops. -/
theorem solve_bounded_retries_witness :
    solveLoop (fun _ => "r") (fun _ => { success := false, reason := "", suggestion := "" })
        agentMaxRetries 1 [{ step := "s", tool := "search", parameters := [] }] 2 0 [] =
      some [{ step := { step := "s", tool := "search", parameters := [] },
              result := "r",
              verification := { success := false, reason := "", suggestion := "" },
              status := "failed" }] := by
  have h := (solve_bounded_retries (fun _ => "r")
    (fun _ => { success := false, reason := "", suggestion := "" })).2.2.2
    0 0 { step := "s", tool := "search", parameters := [] } [] [] rfl
  simpa using h

end PEV

namespace ToT

theorem generate_thoughts_length_le (jsonArr : String → Option (List String))
    (response : String) (num_thoughts : Nat) :
    (generate_thoughts jsonArr response num_thoughts).length ≤ num_thoughts := by
  unfold generate_thoughts
  cases jsonArr (AgentPatterns.extractJson response) <;>
    simp [List.length_take]

theorem heightList_le (l : List TNode) (k : Nat) (h : ∀ t ∈ l, t.height ≤ k) :
    heightList l ≤ k := by
  induction l with
  | nil => simp [heightList]
  | cons t ts ih =>
    rw [heightList]
    exact max_le (h t (List.mem_cons_self t ts))
      (ih fun x hx => h x (List.mem_cons_of_mem t hx))

theorem mem_nodesList_iff (t : TNode) (l : List TNode) :
    t ∈ nodesList l ↔ ∃ c ∈ l, t ∈ c.nodes := by
  induction l with
  | nil => simp [nodesList]
  | cons c cs ih =>
    rw [nodesList]
    simp [List.mem_append, ih]

theorem growChild_height (o : Oracles) (bf : Nat) :
    ∀ (L : Nat) (path : List String) (c : String),
      (growChild o bf path c L).height ≤ L + 1 := by
  intro L
  induction L with
  | zero =>
    intro path c
    simp only [growChild, TNode.height]
    simp [heightList]
  | succ L ih =>
    intro path c
    simp only [growChild, TNode.height]
    split
    · have h2 : heightList ((generate_thoughts o.jsonArr
          (o.genResponse (path ++ [c])) bf).map
            (fun c2 => growChild o bf (path ++ [c]) c2 L)) ≤ L + 1 := by
        apply heightList_le
        intro t ht
        obtain ⟨c2, _, rfl⟩ := List.mem_map.mp ht
        exact ih (path ++ [c]) c2
      omega
    · simp [heightList]

theorem growChild_children_le (o : Oracles) (bf : Nat) :
    ∀ (L : Nat) (path : List String) (c : String),
      ∀ t ∈ (growChild o bf path c L).nodes, t.children.length ≤ bf := by
  intro L
  induction L with
  | zero =>
    intro path c t ht
    simp only [growChild, TNode.nodes] at ht
    simp [nodesList] at ht
    subst ht
    simp [TNode.children]
  | succ L ih =>
    intro path c t ht
    simp only [growChild, TNode.nodes] at ht
    rcases List.mem_cons.mp ht with h | h
    · subst h
      simp only [TNode.children]
      split
      · rw [List.length_map]
        exact generate_thoughts_length_le o.jsonArr (o.genResponse (path ++ [c])) bf
      · simp
    · rw [mem_nodesList_iff] at h
      obtain ⟨cnode, hc, htc⟩ := h
      split at hc
      · obtain ⟨c2, _, rfl⟩ := List.mem_map.mp hc
        exact ih (path ++ [c]) c2 t htc
      · simp at hc

theorem growChild_filter (o : Oracles) (bf : Nat) :
    ∀ (L : Nat) (path : List String) (c : String),
      ∀ t ∈ (growChild o bf path c L).nodes, t.children ≠ [] →
        t.isTerminal = false ∧ 6 ≤ t.evaluation_score := by
  intro L
  induction L with
  | zero =>
    intro path c t ht hne
    simp only [growChild, TNode.nodes] at ht
    simp [nodesList] at ht
    subst ht
    simp [TNode.children] at hne
  | succ L ih =>
    intro path c t ht hne
    simp only [growChild, TNode.nodes] at ht
    rcases List.mem_cons.mp ht with h | h
    · subst h
      simp only [TNode.children] at hne
      split at hne
      · rename_i hcond
        simp only [TNode.isTerminal, TNode.evaluation_score]
        exact hcond
      · simp at hne
    · rw [mem_nodesList_iff] at h
      obtain ⟨cnode, hc, htc⟩ := h
      split at hc
      · obtain ⟨c2, _, rfl⟩ := List.mem_map.mp hc
        exact ih (path ++ [c]) c2 t htc hne
      · simp at hc

/-- C5 — `TreeOfThoughts.build_tree` is a breadth-limited walk: for every
problem (i.e. for every set of LLM/`json.loads` collaborators), the
returned tree has height at most `max_depth + 1` — node depths at most
`max_depth`, so the level loop runs at most `max_depth` levels and the walk
terminates; every node has at most `branching_factor` children; and a
non-root node is expanded (has children) only if it is not terminal and its
evaluation score is at least `6.0`. -/
theorem build_tree_bounded (o : Oracles) (max_depth branching_factor : Nat) :
    (build_tree o max_depth branching_factor).height ≤ max_depth + 1 ∧
    (∀ t ∈ (build_tree o max_depth branching_factor).nodes,
      t.children.length ≤ branching_factor) ∧
    (∀ c ∈ (build_tree o max_depth branching_factor).children,
      ∀ t ∈ c.nodes, t.children ≠ [] →
        t.isTerminal = false ∧ 6 ≤ t.evaluation_score) := by
  refine ⟨?_, ?_, ?_⟩
  · match max_depth with
    | 0 =>
      simp only [build_tree, TNode.height]
      simp [heightList]
    | md + 1 =>
      simp only [build_tree, TNode.height]
      have h2 : heightList ((generate_thoughts o.jsonArr
          (o.genResponse ["Start solving the problem"]) branching_factor).map
            (fun c => growChild o branching_factor ["Start solving the problem"] c md)) ≤
          md + 1 := by
        apply heightList_le
        intro t ht
        obtain ⟨c, _, rfl⟩ := List.mem_map.mp ht
        exact growChild_height o branching_factor md ["Start solving the problem"] c
      omega
  · intro t ht
    match max_depth with
    | 0 =>
      simp only [build_tree, TNode.nodes] at ht
      simp [nodesList] at ht
      subst ht
      simp [TNode.children]
    | md + 1 =>
      simp only [build_tree, TNode.nodes] at ht
      rcases List.mem_cons.mp ht with h | h
      · subst h
        simp only [TNode.children]
        rw [List.length_map]
        exact generate_thoughts_length_le o.jsonArr
          (o.genResponse ["Start solving the problem"]) branching_factor
      · rw [mem_nodesList_iff] at h
        obtain ⟨cnode, hc, htc⟩ := h
        obtain ⟨c, _, rfl⟩ := List.mem_map.mp hc
        exact growChild_children_le o branching_factor md
          ["Start solving the problem"] c t htc
  · intro c hc t ht hne
    match max_depth with
    | 0 =>
      simp only [build_tree, TNode.children] at hc
      simp at hc
    | md + 1 =>
      simp only [build_tree, TNode.children] at hc
      obtain ⟨c2, _, rfl⟩ := List.mem_map.mp hc
      exact growChild_filter o branching_factor md
        ["Start solving the problem"] c2 t ht hne

/-- Witness for C5: on the concrete collaborators of `witnessOracles` with
`max_depth = 1`, `branching_factor = 1`, the returned root (a member of its
own node list) has at most one child. -/
theorem build_tree_bounded_witness :
    (build_tree witnessOracles 1 1).children.length ≤ 1 := by
  apply (build_tree_bounded witnessOracles 1 1).2.1
  simp only [build_tree, TNode.nodes]
  exact List.mem_cons_self _ _

end ToT

namespace SM26

/-- C9 — for every `StateMachine` instance and every event, if the pair
`(current_state, event)` is not a key of the transitions table, then
`transition(event, data)` returns `False` and leaves the machine —
`current_state`, `previous_state`, `context`, and `history` — entirely
unchanged; in particular no state action runs (no context update and no
follow-up transition happens, whatever the LLM and clock oracles would
answer). -/
theorem transition_invalid_is_noop (llm : String → Except String String)
    (ts : Nat → String) (fuel : Nat) (m : Machine) (event : Event) (data : Dict)
    (h : lookupTransition m.transitions (m.current_state, event) = none) :
    transition llm ts fuel m event data = (false, m) := by
  cases fuel with
  | zero => rw [transition]
  | succ f =>
    rw [transition]
    simp [h]

/-- Witness for C9: from the freshly initialised machine in state `IDLE`,
the event `PROCESSING_COMPLETE` has no entry in the default table, so the
transition is refused and the machine is untouched. -/
theorem transition_invalid_is_noop_witness :
    transition (fun _ => .ok "reply") (fun _ => "00:00:00") 5
        (initMachine .IDLE) .PROCESSING_COMPLETE [] =
      (false, initMachine .IDLE) :=
  transition_invalid_is_noop (fun _ => .ok "reply") (fun _ => "00:00:00") 5
    (initMachine .IDLE) .PROCESSING_COMPLETE [] rfl

end SM26

namespace Heap

theorem addChild_length (s : Store) (p : Nat) (c : String) :
    (addChild s p c).length = s.length + 1 := by
  simp [addChild]

theorem getElem?_append_singleton_len (l : List NodeObj) (a : NodeObj) (n : Nat)
    (h : n = l.length) : (l ++ [a])[n]? = some a := by
  subst h
  exact List.getElem?_concat_length l a

theorem addChild_getElem?_lt (s : Store) (p : Nat) (c : String) (i : Nat)
    (hi : i < s.length) :
    ∃ n old, (addChild s p c)[i]? = some n ∧ s[i]? = some old ∧
      n.content = old.content ∧ n.parent = old.parent ∧ n.depth = old.depth := by
  simp only [addChild]
  by_cases hip : p = i
  · subst hip
    rw [List.getElem?_append_left (by simpa using hi),
      List.getElem?_set_self (by simpa using hi)]
    exact ⟨_, s[p], rfl, List.getElem?_eq_getElem hi,
      by simp [List.getD_eq_getElem?_getD, List.getElem?_eq_getElem hi],
      by simp [List.getD_eq_getElem?_getD, List.getElem?_eq_getElem hi],
      by simp [List.getD_eq_getElem?_getD, List.getElem?_eq_getElem hi]⟩
  · rw [List.getElem?_append_left (by simpa using hi), List.getElem?_set_ne hip]
    exact ⟨s[i], s[i], List.getElem?_eq_getElem hi, List.getElem?_eq_getElem hi,
      rfl, rfl, rfl⟩

theorem addChild_getElem?_new (s : Store) (p : Nat) (c : String)
    (hp : p < s.length) :
    (addChild s p c)[s.length]? =
      some { content := c, parent := some p, children := [],
             depth := s[p].depth + 1 } := by
  simp only [addChild]
  rw [getElem?_append_singleton_len _ _ _ (by simp)]
  simp [List.getD_eq_getElem?_getD, List.getElem?_eq_getElem hp]

theorem built_inv (s : Store) (hB : Built s) :
    ∀ i n, s[i]? = some n →
      n.depth ≤ i ∧
      (n.parent = none → i = 0 ∧ n.depth = 0) ∧
      (∀ p, n.parent = some p → p < i ∧
        ∃ pn, s[p]? = some pn ∧ n.depth = pn.depth + 1) := by
  induction hB with
  | root c =>
    intro i n hn
    match i with
    | 0 =>
      simp only [List.getElem?_cons_zero, Option.some_inj] at hn
      subst hn
      refine ⟨le_refl 0, fun _ => ⟨rfl, rfl⟩, ?_⟩
      intro p hp
      simp at hp
    | i + 1 => simp at hn
  | step s p c hs hp ih =>
    intro i n hn
    have hlen := addChild_length s p c
    have hisome : i < (addChild s p c).length := (List.getElem?_eq_some_iff.mp hn).1
    by_cases hi : i < s.length
    · obtain ⟨n', old, hn', hold, hco, hpa, hde⟩ := addChild_getElem?_lt s p c i hi
      obtain rfl : n = n' := Option.some_inj.mp (hn.symm.trans hn')
      obtain ⟨hdep, hnone, hsome⟩ := ih i old hold
      refine ⟨by omega, ?_, ?_⟩
      · intro hno
        rw [hpa] at hno
        exact ⟨(hnone hno).1, by rw [hde]; exact (hnone hno).2⟩
      · intro q hq
        rw [hpa] at hq
        obtain ⟨hqi, pn, hpn, hpnd⟩ := hsome q hq
        have hq2 : q < s.length := by omega
        obtain ⟨m, old2, hm, hold2, _, _, hmd⟩ := addChild_getElem?_lt s p c q hq2
        rw [hpn] at hold2
        obtain rfl : pn = old2 := Option.some_inj.mp hold2
        exact ⟨hqi, m, hm, by omega⟩
    · have hieq : i = s.length := by omega
      subst hieq
      rw [addChild_getElem?_new s p c hp] at hn
      obtain rfl := (Option.some_inj.mp hn).symm
      obtain ⟨hdp, _, _⟩ := ih p s[p] (List.getElem?_eq_getElem hp)
      refine ⟨by simp; omega, ?_, ?_⟩
      · intro hno
        simp at hno
      · intro q hq
        simp only [Option.some_inj] at hq
        subst hq
        refine ⟨hp, ?_⟩
        obtain ⟨m, old, hm, hold, _, _, hmd⟩ := addChild_getElem?_lt s p c p hp
        obtain rfl : s[p] = old :=
          Option.some_inj.mp ((List.getElem?_eq_getElem hp).symm.trans hold)
        exact ⟨m, hm, by simp [hmd]⟩

theorem built_length_pos (s : Store) (hB : Built s) : 0 < s.length := by
  induction hB with
  | root c => simp
  | step s p c hs hp ih => rw [addChild_length]; omega

theorem getPath_master (s : Store) (hB : Built s) :
    ∀ i n, s[i]? = some n →
      (∀ fuel acc, n.depth < fuel →
        getPathAux s fuel (some i) acc = get_path s i ++ acc) ∧
      (get_path s i).length = n.depth + 1 ∧
      (get_path s i).getLast? = some n.content ∧
      (∀ rn, s[0]? = some rn → (get_path s i).head? = some rn.content) ∧
      (∀ p, n.parent = some p → get_path s i = get_path s p ++ [n.content]) := by
  intro i
  induction i using Nat.strong_induction_on with
  | _ i ih =>
    intro n hn
    obtain ⟨hdep, hnone, hsome⟩ := built_inv s hB i n hn
    have hilen : i < s.length := (List.getElem?_eq_some_iff.mp hn).1
    cases hpar : n.parent with
    | none =>
      obtain ⟨hi0, hd0⟩ := hnone hpar
      subst hi0
      have key : ∀ fuel acc, n.depth < fuel →
          getPathAux s fuel (some 0) acc = n.content :: acc := by
        intro fuel acc hf
        match fuel with
        | f + 1 =>
          rw [getPathAux]
          simp [hn, hpar, getPathAux]
      have hgp : get_path s 0 = [n.content] := by
        rw [get_path]
        exact key s.length [] (by omega)
      refine ⟨?_, ?_, ?_, ?_, ?_⟩
      · intro fuel acc hf
        rw [key fuel acc hf, hgp]
        rfl
      · rw [hgp, hd0]
        rfl
      · rw [hgp]
        rfl
      · intro rn hrn
        rw [hn] at hrn
        obtain rfl : n = rn := Option.some_inj.mp hrn
        rw [hgp]
        rfl
      · intro p hp
        exact absurd hp (by simp)
    | some p =>
      obtain ⟨hpi, pn, hpn, hpnd⟩ := hsome p hpar
      obtain ⟨ihAux, ihLen, ihLast, ihHead, _⟩ := ih p hpi pn hpn
      have key : ∀ fuel acc, n.depth < fuel →
          getPathAux s fuel (some i) acc = (get_path s p ++ [n.content]) ++ acc := by
        intro fuel acc hf
        match fuel with
        | f + 1 =>
          rw [getPathAux]
          simp only [hn]
          rw [hpar, ihAux f (n.content :: acc) (by omega)]
          simp
      have hgp : get_path s i = get_path s p ++ [n.content] := by
        rw [get_path]
        have := key s.length [] (by omega)
        simpa using this
      refine ⟨?_, ?_, ?_, ?_, ?_⟩
      · intro fuel acc hf
        rw [key fuel acc hf, hgp]
      · rw [hgp]
        simp [ihLen]
        omega
      · rw [hgp]
        exact List.getLast?_concat _
      · intro rn hrn
        rw [hgp, List.head?_append, ihHead rn hrn]
        rfl
      · intro q hq
        obtain rfl : p = q := Option.some_inj.mp hq
        exact hgp

/-- C10 — for every `ThoughtNode` tree built from a root node of depth 0
solely by `add_child` calls: `add_child` sets the child's `parent` reference
to the node it was added to and its `depth` to that parent's depth plus one;
and on any node of such a tree, `get_path()` returns a list of exactly
`depth + 1` contents, starting with the root's content and ending with the
node's own content (each node's path extending its parent's by its own
content). -/
theorem thought_node_path_spec (s : Store) (hB : Built s) :
    (∀ (s' : Store) (p : Nat) (c : String) (hp : p < s'.length),
      (addChild s' p c)[s'.length]? =
        some { content := c, parent := some p, children := [],
               depth := (s'.get ⟨p, hp⟩).depth + 1 }) ∧
    (∀ i n, s[i]? = some n →
      (get_path s i).length = n.depth + 1 ∧
      (∀ rn, s[0]? = some rn → (get_path s i).head? = some rn.content) ∧
      (get_path s i).getLast? = some n.content ∧
      (∀ p, n.parent = some p → get_path s i = get_path s p ++ [n.content])) := by
  refine ⟨?_, ?_⟩
  · intro s' p c hp
    exact addChild_getElem?_new s' p c hp
  · intro i n hn
    obtain ⟨_, hlen, hlast, hhead, hparent⟩ := getPath_master s hB i n hn
    exact ⟨hlen, hhead, hlast, hparent⟩

/-- Witness for C10: in the store built by attaching `"a"` under the root
`"root"` and `"b"` under `"a"`, the node `"b"` (index 2, depth 2) has a
`get_path` of exactly 3 contents. -/
theorem thought_node_path_spec_witness :
    (get_path (addChild (addChild
        [{ content := "root", parent := none, children := [], depth := 0 }]
        0 "a") 1 "b") 2).length = 3 := by
  have hB : Built (addChild (addChild
      [{ content := "root", parent := none, children := [], depth := 0 }] 0 "a") 1 "b") :=
    .step _ 1 "b" (.step _ 0 "a" (.root "root") (by decide)) (by decide)
  exact ((thought_node_path_spec _ hB).2 2
    { content := "b", parent := some 1, children := [], depth := 2 } rfl).1

end Heap
